import Mathlib

/-!
Verification of the odc-gee indexing pipeline against its specification.

The definitions below are shallow embeddings of the Python sources:
  * src/odc_gee/parser.py          (uuid5 identity, geometry finiteness, parse)
  * src/indexing/parsers/ls8.py    (conditional product binding in the identifier)
  * src/odc_gee/indexing/utils.py  (gee_indexer pagination loop, MakeMetadataDoc,
                                    add_dataset)
  * src/odc_gee/earthengine.py     (cleanup / Datacube.remove)

Machine integers are modelled as Nat with explicit reduction modulo 2^32
where the Python/numpy code works on 32-bit words; bytes are Nat < 256.
-/

namespace OdcGee

/- ## SHA-1 and version-5 UUIDs (Python uuid.uuid5 semantics)

Python derives the identifier with uuid.uuid5(uuid.NAMESPACE_URL, name):
SHA-1 over namespace bytes followed by the UTF-8 encoding of the name,
truncated to 16 bytes, with the version nibble set to 5 and the variant
bits set to 10, rendered as the canonical 8-4-4-4-12 lowercase hex string. -/

def rotl32 (n w : Nat) : Nat := ((w <<< n) ||| (w >>> (32 - n))) % 2 ^ 32

def bytesToWord (a b c d : Nat) : Nat :=
  (((a % 256) * 256 + b % 256) * 256 + c % 256) * 256 + d % 256

def wordToBytes (w : Nat) : List Nat :=
  [w / 2 ^ 24 % 256, w / 2 ^ 16 % 256, w / 2 ^ 8 % 256, w % 256]

/-- Big-endian byte rendering of a number on a fixed number of bytes. -/
def toBytesBE : Nat → Nat → List Nat
  | 0, _ => []
  | k + 1, n => toBytesBE k (n / 256) ++ [n % 256]

/-- SHA-1 message padding: 0x80, zeros to 56 mod 64, 8-byte big-endian bit length. -/
def sha1Pad (msg : List Nat) : List Nat :=
  msg ++ 0x80 :: List.replicate ((119 - msg.length % 64) % 64) 0
      ++ toBytesBE 8 (8 * msg.length % 2 ^ 64)

/-- Split into 64-byte blocks; the fuel argument (any bound on the number of
blocks, the callers pass the byte length) keeps the recursion structural. -/
def chunk64 : Nat → List Nat → List (List Nat)
  | 0, _ => []
  | _ + 1, [] => []
  | k + 1, b :: bs => ((b :: bs).take 64) :: chunk64 k ((b :: bs).drop 64)

def words16 : List Nat → List Nat
  | a :: b :: c :: d :: rest => bytesToWord a b c d :: words16 rest
  | _ => []

def sha1K (i : Nat) : Nat :=
  if i < 20 then 0x5A827999 else if i < 40 then 0x6ED9EBA1
  else if i < 60 then 0x8F1BBCDC else 0xCA62C1D6

def sha1F (i b c d : Nat) : Nat :=
  if i < 20 then (b &&& c) ||| ((0xFFFFFFFF ^^^ b) &&& d)
  else if i < 40 then b ^^^ c ^^^ d
  else if i < 60 then (b &&& c) ||| (b &&& d) ||| (c &&& d)
  else b ^^^ c ^^^ d

/-- Extend the 16 message words to the 80-word SHA-1 schedule. -/
def extendSchedule : Nat → List Nat → List Nat
  | 0, ws => ws
  | k + 1, ws =>
      extendSchedule k (ws ++ [rotl32 1 (ws.getD (ws.length - 3) 0 ^^^
        ws.getD (ws.length - 8) 0 ^^^ ws.getD (ws.length - 14) 0 ^^^
        ws.getD (ws.length - 16) 0)])

def sha1Round (st : Nat × Nat × Nat × Nat × Nat) (iw : Nat × Nat) :
    Nat × Nat × Nat × Nat × Nat :=
  match st, iw with
  | (a, b, c, d, e), (i, w) =>
      ((rotl32 5 a + sha1F i b c d + e + sha1K i + w) % 2 ^ 32,
       a, rotl32 30 b, c, d)

def sha1Block (h : Nat × Nat × Nat × Nat × Nat) (block : List Nat) :
    Nat × Nat × Nat × Nat × Nat :=
  let ws := extendSchedule 64 (words16 block)
  match h, ws.enum.foldl sha1Round h with
  | (h0, h1, h2, h3, h4), (a, b, c, d, e) =>
      ((h0 + a) % 2 ^ 32, (h1 + b) % 2 ^ 32, (h2 + c) % 2 ^ 32,
       (h3 + d) % 2 ^ 32, (h4 + e) % 2 ^ 32)

def sha1 (msg : List Nat) : List Nat :=
  let h := (chunk64 (sha1Pad msg).length (sha1Pad msg)).foldl sha1Block
    (0x67452301, 0xEFCDAB89, 0x98BADCFE, 0x10325476, 0xC3D2E1F0)
  wordToBytes h.1 ++ wordToBytes h.2.1 ++ wordToBytes h.2.2.1 ++
    wordToBytes h.2.2.2.1 ++ wordToBytes h.2.2.2.2

/-- UTF-8 encoding of one character. -/
def utf8Encode (c : Char) : List Nat :=
  let n := c.toNat
  if n < 0x80 then [n]
  else if n < 0x800 then [0xC0 ||| (n >>> 6), 0x80 ||| (n &&& 0x3F)]
  else if n < 0x10000 then
    [0xE0 ||| (n >>> 12), 0x80 ||| ((n >>> 6) &&& 0x3F), 0x80 ||| (n &&& 0x3F)]
  else
    [0xF0 ||| (n >>> 18), 0x80 ||| ((n >>> 12) &&& 0x3F),
     0x80 ||| ((n >>> 6) &&& 0x3F), 0x80 ||| (n &&& 0x3F)]

def strBytes (s : String) : List Nat := (s.data.map utf8Encode).flatten

/-- Bytes of uuid.NAMESPACE_URL, 6ba7b811-9dad-11d1-80b4-00c04fd430c8. -/
def NAMESPACE_URL : List Nat :=
  [0x6b, 0xa7, 0xb8, 0x11, 0x9d, 0xad, 0x11, 0xd1,
   0x80, 0xb4, 0x00, 0xc0, 0x4f, 0xd4, 0x30, 0xc8]

/-- The sixteen bytes of a version-5 UUID before hex formatting. -/
def uuid5Bytes (ns : List Nat) (name : String) : List Nat :=
  let d := (sha1 (ns ++ strBytes name)).take 16
  d.take 6 ++ [(d.getD 6 0 &&& 0x0F) ||| 0x50] ++ [d.getD 7 0] ++
    [(d.getD 8 0 &&& 0x3F) ||| 0x80] ++ d.drop 9

/-- The version-5 UUID as a 128-bit number (CPython stores the UUID as int). -/
def uuid5Nat (ns : List Nat) (name : String) : Nat :=
  (uuid5Bytes ns name).foldl (fun acc x => acc * 256 + x) 0

def hexDigit (n : Nat) : Char :=
  if n < 10 then Char.ofNat (48 + n) else Char.ofNat (87 + n)

def hexNibbles (n : Nat) : List Char :=
  (List.range 32).map (fun i => hexDigit (n / 16 ^ (31 - i) % 16))

/-- Canonical 8-4-4-4-12 lowercase rendering, as Python str(uuid). -/
def formatUuid (n : Nat) : String :=
  let h := hexNibbles n
  String.mk (h.take 8 ++ '-' :: ((h.drop 8).take 4) ++ '-' ::
    ((h.drop 12).take 4) ++ '-' :: ((h.drop 16).take 4) ++ '-' :: h.drop 20)

def uuid5 (ns : List Nat) (name : String) : String := formatUuid (uuid5Nat ns name)

/- ## Identifier derivation (src/odc_gee/parser.py line 71, src/indexing/parsers/ls8.py lines 26-29) -/

/-- parser.py: uuid5(NAMESPACE_URL, f-string EEDAI:product.name/image name); the
product argument is always present in this variant. -/
def parse_id (productName recordName : String) : String :=
  uuid5 NAMESPACE_URL ("EEDAI:" ++ productName ++ "/" ++ recordName)

/-- Python truthiness of an optional string: None and the empty string are falsy. -/
def pyTruthy : Option String → Bool
  | none => false
  | some s => !(s == "")

/-- ls8.py-style parsers: include the product in the hashed name only when the
product argument is truthy. -/
def ls8_parse_id (product : Option String) (recordName : String) : String :=
  if pyTruthy product then
    uuid5 NAMESPACE_URL ("EEDAI:" ++ product.getD "" ++ "/" ++ recordName)
  else
    uuid5 NAMESPACE_URL ("EEDAI:" ++ recordName)

/- ## Geometry finiteness and parse (src/odc_gee/parser.py)

GeoJSON coordinates are double-precision decimals, possibly the special
Infinity values the catalog emits for unbounded assets.  Finite doubles are
modelled as rationals; the special values as dedicated constructors. -/

inductive PyFloat where
  | fin (x : ℚ)
  | inf
  | ninf
  | nan
deriving DecidableEq

/-- Casting a double to numpy float32 overflows to an infinity exactly when the
magnitude reaches 2^128 - 2^103 (round-to-nearest-even boundary of the largest
finite float32); np.isfinite is then false.  The special values stay special. -/
def f32Finite : PyFloat → Bool
  | .fin x => x < 2 ^ 128 - 2 ^ 103 && -(2 ^ 128 - 2 ^ 103 : ℚ) < x
  | _ => false

/-- A coordinate value that is already non-finite in double precision. -/
def nonFiniteVal : PyFloat → Bool
  | .fin _ => false
  | _ => true

structure PyPoint where
  lon : PyFloat
  lat : PyFloat
deriving DecidableEq

structure GeoJson where
  coordinates : List (List PyPoint)
deriving DecidableEq

/-- parser.py geometry_isfinite: builds np.array(geometry.coordinates[0],
dtype=np.float32) — the first ring only — and reports whether every entry is
finite after the float32 conversion.  (The source raises IndexError on an empty
coordinate array, a case no claim touches; headD keeps the model total.) -/
def geometry_isfinite (g : GeoJson) : Bool :=
  (g.coordinates.headD []).all (fun p => f32Finite p.lon && f32Finite p.lat)

structure Corner where
  lon : ℚ
  lat : ℚ
deriving DecidableEq

structure Corners where
  ul : Corner
  ur : Corner
  ll : Corner
  lr : Corner
deriving DecidableEq

/-- The canonical whole-globe corner set substituted for non-finite geometry. -/
def wholeGlobe : Corners :=
  { ul := { lon := -180, lat := 90 }, ur := { lon := 180, lat := 90 },
    ll := { lon := -180, lat := -90 }, lr := { lon := 180, lat := -90 } }

structure PyImage where
  name : String
  startTime : String
  geometry : GeoJson
deriving DecidableEq

structure ParseResult where
  id : String
  creation_dt : String
  coord : Corners
  path : String
deriving DecidableEq

/-- parser.py parse, restricted to the fields the claims are about.  The
geographic-extent computation of the finite branch
(get_extents(Geometry(image_data.geometry).boundingbox.points)) goes through
the external datacube geometry library and is abstracted as the reproject
parameter; the grid/affine fields derived the same way are omitted. -/
def parse (reproject : GeoJson → Corners) (productName : String) (img : PyImage) :
    ParseResult :=
  { id := parse_id productName img.name
    creation_dt := img.startTime
    coord :=
      if geometry_isfinite img.geometry then reproject img.geometry else wholeGlobe
    path := img.name }

/- ## The indexing walk (src/odc_gee/indexing/utils.py gee_indexer / MakeMetadataDoc)

A raw record on a catalog page carries a name and its band identifiers. -/

structure EEImage where
  name : String
  bands : List String
deriving DecidableEq

/-- gee_indexer eligibility: band_length = len([b for b in image bands if b in
required_bands]) must equal len(required_bands). -/
def eligible (required : List String) (img : EEImage) : Bool :=
  (img.bands.filter (fun b => decide (b ∈ required))).length == required.length

structure DocBand where
  path : String
  layer : Nat
deriving DecidableEq

structure Doc where
  id : String
  bands : List (String × DocBand)
deriving DecidableEq

/-- MakeMetadataDoc.__call__ composed with an ls8.py-style platform parser:
metadata.bands is the parser's fixed BANDS table of (raw id, semantic name)
pairs; the document maps band[1] (the semantic name) to the path
EEDAI:<record name>:<raw id> with layer 1; the id comes from the parser. -/
def make_metadata_doc (table : List (String × String)) (product : Option String)
    (img : EEImage) : Doc :=
  { id := ls8_parse_id product img.name
    bands := table.map (fun rs =>
      (rs.2, { path := "EEDAI:" ++ img.name ++ ":" ++ rs.1, layer := 1 })) }

/-- The API filters dict: the pageToken entry is the only one the loop mutates
(update then pop), so it is modelled as its own field next to the untouched
caller-supplied entries. -/
structure Filters where
  base : List (String × String)
  pageToken : Option String
deriving DecidableEq

structure PageBody where
  images : List EEImage
  nextPageToken : Option String
deriving DecidableEq

/-- A listImages JSON response: either the empty object (len(response) = 0) or
an object with an images array and an optional nextPageToken. -/
abbrev Resp := Option PageBody

/-- The loop variable response: None before the first fetch, then a response. -/
inductive LoopResp where
  | start
  | got (r : Resp)
deriving DecidableEq

/-- while(response is None or nextPageToken in response.keys()). -/
def loopCond : LoopResp → Bool
  | .start => true
  | .got none => false
  | .got (some pb) => pb.nextPageToken.isSome

/-- Observable history of one walk: the pageToken field of each request issued,
the records processed in order, the records handed to add_dataset, the running
image_sum increment, the pageToken field of the filters at the end of each
iteration, and its final value. -/
structure Trace where
  requests : List (Option String)
  images : List EEImage
  upserted : List EEImage
  sum : Nat
  tokenAfter : List (Option String)
  finalToken : Option String
deriving DecidableEq

/-- The if/else at the top of the while body: when the previous response
carries a nextPageToken the token is merged into the filters for this request
and popped right after it (so the issued request's pageToken is the received
token and the filters leave the iteration without one); otherwise the request
goes out with the filters as they are. -/
def branchKF (f : Filters) (r : LoopResp) : Option String × Filters :=
  match r with
  | .got (some pb) =>
    match pb.nextPageToken with
    | some t => (some t, { f with pageToken := none })
    | none => (f.pageToken, f)
  | _ => (f.pageToken, f)

def respImages : Resp → List EEImage
  | none => []
  | some pb => pb.images

/-- The gee_indexer while loop.  The catalog is a function from the pageToken
field of the request to the response (the untouched base filters are fixed for
the whole walk).  Fuel bounds the number of iterations; none means the fuel ran
out before the loop terminated on its own. -/
def runLoop (cat : Option String → Resp) (required : List String) :
    Nat → Filters → LoopResp → Option Trace
  | fuel, f, r =>
    if loopCond r = false then
      some { requests := [], images := [], upserted := [], sum := 0,
             tokenAfter := [], finalToken := f.pageToken }
    else
      match fuel with
      | 0 => none
      | fuel + 1 =>
        let kf := branchKF f r
        let resp := cat kf.1
        let imgs := respImages resp
        (runLoop cat required fuel kf.2 (.got resp)).map (fun t =>
          { requests := kf.1 :: t.requests,
            images := imgs ++ t.images,
            upserted := imgs.filter (eligible required) ++ t.upserted,
            sum := imgs.length + t.sum,
            tokenAfter := kf.2.pageToken :: t.tokenAfter,
            finalToken := t.finalToken })

/-- index_params.product is None or not list_products().name.isin(product).any(). -/
def missingProduct (registered : List String) : Option String → Bool
  | none => true
  | some p => !(registered.contains p)

/-- gee_indexer: raises ValueError("Missing product.") when the product is None
or not among the registered products, before the pagination loop issues any
listImages request; otherwise walks the catalog, upserting eligible records
and accumulating image_sum.  The Datacube()/EarthEngine() client construction
that precedes this check in the source — including the EarthEngine
constructor's network fetch of the discovery document — is modelled around
this function by indexer_with_setup below. -/
def gee_indexer (cat : Option String → Resp) (registered : List String)
    (table : List (String × String)) (product : Option String) (filters : Filters)
    (fuel : Nat) (imageSum : Nat) : Except String (Option (Trace × Nat)) :=
  if missingProduct registered product then
    .error "Missing product."
  else
    match runLoop cat (table.map Prod.fst) fuel filters .start with
    | none => .ok none
    | some t => .ok (some (t, imageSum + t.sum))

/-- The requests a gee_indexer invocation issued (none when it raised). -/
def requestsIssued : Except String (Option (Trace × Nat)) → List (Option String)
  | .error _ => []
  | .ok none => []
  | .ok (some (t, _)) => t.requests

/-- The records a gee_indexer invocation parsed, built and upserted. -/
def upsertedOf : Except String (Option (Trace × Nat)) → List EEImage
  | .ok (some (t, _)) => t.upserted
  | _ => []

/-- The records a gee_indexer invocation observed. -/
def imagesOf : Except String (Option (Trace × Nat)) → List EEImage
  | .ok (some (t, _)) => t.images
  | _ => []

/-- The image_sum a gee_indexer invocation returned. -/
def countOf : Except String (Option (Trace × Nat)) → Nat
  | .ok (some (_, n)) => n
  | _ => 0

/- ## Setup phase and its network activity (src/odc_gee/indexing.py lines
131-136, src/indexing/earthengine.py lines 16-28)

Before the missing-product check runs, the indexer constructs its clients:
datacube.Datacube(app=...) and then EarthEngine().  The EarthEngine
constructor calls googleapiclient.discovery.build('earthengine', 'v1alpha',
..., cache_discovery=False), which fetches the service discovery document over
the network.  Only after that does the product check run, and only after the
check does the loop issue listImages requests. -/

inductive NetEvent where
  | discoveryFetch
  | listImages (pageToken : Option String)
deriving DecidableEq

/-- gee_indexer together with its setup phase, returning the chronological
network interactions of the invocation next to its result: the constructor's
discovery fetch always comes first — also when the product check then raises —
and the loop's listImages requests (none on the error path) follow it. -/
def indexer_with_setup (cat : Option String → Resp) (registered : List String)
    (table : List (String × String)) (product : Option String)
    (filters : Filters) (fuel imageSum : Nat) :
    List NetEvent × Except String (Option (Trace × Nat)) :=
  let res := gee_indexer cat registered table product filters fuel imageSum
  (NetEvent.discoveryFetch :: (requestsIssued res).map NetEvent.listImages, res)

/- ## Chained catalogs

A synthetic catalog of pages linked by continuation tokens: requesting with
pageToken k answers the first page, whose token (if any) keys the next page,
and the last page carries no token.  The degenerate empty catalog answers the
empty JSON object. -/

inductive Chains (cat : Option String → Resp) :
    Option String → List (List EEImage) → List String → Prop
  | nil {k} : cat k = none → Chains cat k [] []
  | last {k imgs} : cat k = some { images := imgs, nextPageToken := none } →
      Chains cat k [imgs] []
  | cons {k imgs t rest toks} :
      cat k = some { images := imgs, nextPageToken := some t } →
      Chains cat (some t) rest toks → rest ≠ [] →
      Chains cat k (imgs :: rest) (t :: toks)

/- ## add_dataset (src/odc_gee/indexing/utils.py lines 18-43)

The dataset index itself is external (datacube); per the spec it exposes
get/add/update by id, and add raises a duplicate-dataset error when a dataset
with the same id already exists.  Datasets are identified by their id. -/

inductive PyErr where
  | nameError (name : String)
deriving DecidableEq

/-- Modelled from the spec: the external index datasets.get — truthy when a
dataset with this id exists. -/
def datasets_get (db : List String) (id : String) : Bool := db.contains id

/-- Modelled from the spec: the external index datasets.add — raises a
duplicate-dataset error when the id is already present, else inserts. -/
def datasets_add (db : List String) (id : String) : Except String (List String) :=
  if db.contains id then .error ("A dataset already exists: " ++ id)
  else .ok (id :: db)

/-- Modelled from the spec: the external index datasets.update with the
allow-any-change policy; the set of stored ids is unchanged. -/
def datasets_update (db : List String) (_id : String) : List String := db

/-- add_dataset.  resolveErr is the err component returned by the external
Doc2Dataset resolution step for this document; id is the resolved dataset id.
The try/except around the add writes `except Exception as err`, and Python
deletes that name when the handler exits, so the subsequent
`return dataset, err` raises NameError whenever an exception was caught. -/
def add_dataset (resolveErr : Option String) (id : String) (db : List String)
    (update : Bool) : Except PyErr (List String × String × Option String) :=
  match resolveErr with
  | some e => .ok (db, id, some e)
  | none =>
    if update && datasets_get db id then
      .ok (datasets_update db id, id, none)
    else
      match datasets_add db id with
      | .ok db2 => .ok (db2, id, none)
      | .error _ => .error (.nameError "err")

/- ## Credential cleanup (src/odc_gee/earthengine.py cleanup / Datacube.remove) -/

structure Session where
  closed : Bool
deriving DecidableEq

/-- Python truthiness of os.environ.get(key): None and the empty string are
falsy. -/
def envTruthy : Option String → Bool
  | none => false
  | some s => !(s == "")

structure EnvSession where
  env : String → Option String
  request : Option Session

/-- cleanup(key, request): pop the environment variable when its value is
truthy; close the transport session when a request object exists. -/
def cleanup (key : String) (st : EnvSession) : EnvSession :=
  { env := fun k =>
      if envTruthy (st.env key) && k == key then none else st.env k
    request := match st.request with
      | none => none
      | some _ => some { closed := true } }

/-- Datacube.remove runs the weakref finalizer registered at construction,
which calls cleanup('EEDA_BEARER', self.request); finalization on object
destruction runs the same call. -/
def datacube_remove (st : EnvSession) : EnvSession := cleanup "EEDA_BEARER" st

def sessionClosed : Option Session → Bool
  | none => true
  | some s => s.closed

/- ## Concrete instances used in counterexamples and witnesses -/

/-- A catalog with a single page and no continuation token. -/
def onePageCat (imgs : List EEImage) : Option String → Resp
  | none => some { images := imgs, nextPageToken := none }
  | some _ => none

/-- A catalog of two pages chained by the token tok1. -/
def twoPageCat : Option String → Resp
  | none => some { images := [{ name := "p1a", bands := ["B1"] }],
                   nextPageToken := some "tok1" }
  | some t =>
    if t == "tok1" then
      some { images := [{ name := "p2a", bands := ["B1"] }], nextPageToken := none }
    else none

/-- A raw record listing the same band identifier twice. -/
def dupScene : EEImage := { name := "scene1", bands := ["B1", "B1"] }

def lsTable : List (String × String) := [("B1", "blue"), ("B2", "green")]

/-- A radar record listing its single band twice. -/
def dupSceneS1 : EEImage := { name := "s1scene", bands := ["VV", "VV"] }

def s1Table : List (String × String) := [("VV", "vv"), ("VH", "vh")]

/-- A record with one eligible and one ineligible sibling on the same page. -/
def mixedPage : List EEImage :=
  [{ name := "a", bands := ["B1"] }, { name := "b", bands := [] }]

def b1Table : List (String × String) := [("B1", "blue")]

/-- A well-formed record carrying exactly the declared optical bands. -/
def okScene : EEImage := { name := "ok", bands := ["B1", "B2"] }

/-- A well-formed radar record carrying exactly the declared bands. -/
def okSceneS1 : EEImage := { name := "s1ok", bands := ["VV", "VH"] }

/-- A geometry whose first ring is finite while its second ring holds an
Infinity. -/
def infRingGeo : GeoJson :=
  { coordinates :=
      [[{ lon := .fin 0, lat := .fin 0 }, { lon := .fin 1, lat := .fin 1 }],
       [{ lon := .inf, lat := .fin 0 }]] }

def infRingImage : PyImage :=
  { name := "scene", startTime := "2021-01-01T00:00:00Z", geometry := infRingGeo }

def boxCorners : Corners :=
  { ul := { lon := 0, lat := 1 }, ur := { lon := 1, lat := 1 },
    ll := { lon := 0, lat := 0 }, lr := { lon := 1, lat := 0 } }

/-- A stand-in for the external bounding-box computation of the finite branch. -/
def boxReproject : GeoJson → Corners := fun _ => boxCorners

/-- A geometry carrying an Infinity in its first ring. -/
def firstRingInfGeo : GeoJson :=
  { coordinates := [[{ lon := .inf, lat := .fin 0 }]] }

def firstRingInfImage : PyImage :=
  { name := "gpm_scene", startTime := "2020-01-01T00:00:00Z",
    geometry := firstRingInfGeo }

/-- A geometry whose only coordinate is the finite double magnitude 10^39,
larger than any float32. -/
def hugeGeo : GeoJson :=
  { coordinates := [[{ lon := .fin (10 ^ 39), lat := .fin 0 }]] }

def hugeImage : PyImage :=
  { name := "global", startTime := "2000-02-11T00:00:00Z", geometry := hugeGeo }

/-- A credential state holding a published token and an open session. -/
def tokenState : EnvSession :=
  { env := fun _ => some "token123", request := some { closed := false } }

/-- hugeGeo with a different second ring; the classification cannot see it. -/
def hugeGeoTwoRings : GeoJson :=
  { coordinates := [[{ lon := .fin (10 ^ 39), lat := .fin 0 }],
                    [{ lon := .inf, lat := .nan }]] }

/- ## Proofs -/

lemma Chains.length_eq {cat k pages toks} (h : Chains cat k pages toks)
    (hne : pages ≠ []) : pages.length = toks.length + 1 := by
  induction h with
  | nil _ => exact absurd rfl hne
  | last _ => rfl
  | cons _ _ hne2 ih => simp [ih hne2]

lemma runLoop_done (cat : Option String → Resp) (req : List String)
    (fuel : Nat) (f : Filters) (r : LoopResp) (h : loopCond r = false) :
    runLoop cat req fuel f r =
      some { requests := [], images := [], upserted := [], sum := 0,
             tokenAfter := [], finalToken := f.pageToken } := by
  cases fuel <;> · unfold runLoop; simp [h]

lemma runLoop_mid (cat : Option String → Resp) (req : List String) :
    ∀ {k : Option String} {pages : List (List EEImage)} {toks : List String},
      Chains cat k pages toks → pages ≠ [] →
      ∀ t0 imgs0 f fuel, k = some t0 → pages.length ≤ fuel →
      runLoop cat req fuel f
          (.got (some { images := imgs0, nextPageToken := some t0 })) =
        some { requests := some t0 :: toks.map some,
               images := pages.flatten,
               upserted := pages.flatten.filter (eligible req),
               sum := pages.flatten.length,
               tokenAfter := List.replicate pages.length none,
               finalToken := none } := by
  intro k pages toks h
  induction h with
  | nil _ => intro hne; exact absurd rfl hne
  | @last k imgs hcat =>
    intro _ t0 imgs0 f fuel hk hfuel
    subst hk
    cases fuel with
    | zero => exact absurd hfuel (by simp)
    | succ fuel =>
      unfold runLoop
      simp only [loopCond, branchKF, Option.isSome_some, Bool.true_eq_false,
        if_false, hcat]
      rw [runLoop_done cat req fuel { f with pageToken := none } _ (by simp [loopCond])]
      simp [respImages]
  | @cons k imgs t rest toks hcat hch hne2 ih =>
    intro _ t0 imgs0 f fuel hk hfuel
    subst hk
    cases fuel with
    | zero => exact absurd hfuel (by simp)
    | succ fuel =>
      have hrest : rest.length ≤ fuel := by
        simp only [List.length_cons] at hfuel; omega
      unfold runLoop
      simp only [loopCond, branchKF, Option.isSome_some, Bool.true_eq_false,
        if_false, hcat]
      rw [ih hne2 t imgs { f with pageToken := none } fuel rfl hrest]
      simp [respImages, List.filter_append, List.replicate_succ]

lemma runLoop_chained (cat : Option String → Resp) (req : List String)
    {pages : List (List EEImage)} {toks : List String}
    (h : Chains cat none pages toks) (f : Filters) (hf : f.pageToken = none)
    (fuel : Nat) (hfuel : pages.length + 1 ≤ fuel) :
    runLoop cat req fuel f .start =
      some { requests := none :: toks.map some,
             images := pages.flatten,
             upserted := pages.flatten.filter (eligible req),
             sum := pages.flatten.length,
             tokenAfter := List.replicate (toks.length + 1) none,
             finalToken := none } := by
  cases h with
  | nil hcat =>
    cases fuel with
    | zero => exact absurd hfuel (by simp)
    | succ fuel =>
      unfold runLoop
      simp only [loopCond, branchKF, Bool.true_eq_false, if_false, hf, hcat]
      rw [runLoop_done cat req fuel f _ (by simp [loopCond])]
      simp [respImages, hf]
  | last hcat =>
    cases fuel with
    | zero => exact absurd hfuel (by simp)
    | succ fuel =>
      unfold runLoop
      simp only [loopCond, branchKF, Bool.true_eq_false, if_false, hf, hcat]
      rw [runLoop_done cat req fuel f _ (by simp [loopCond])]
      simp [respImages, hf]
  | @cons _ imgs t rest toks2 hcat hch hne2 =>
    cases fuel with
    | zero => exact absurd hfuel (by simp)
    | succ fuel =>
      have hrest : rest.length ≤ fuel := by
        simp only [List.length_cons] at hfuel; omega
      unfold runLoop
      simp only [loopCond, branchKF, Bool.true_eq_false, if_false, hf, hcat]
      rw [runLoop_mid cat req hch hne2 t imgs f fuel rfl hrest]
      have hlen : rest.length = toks2.length + 1 := hch.length_eq hne2
      simp [respImages, List.filter_append, hf, hlen, List.replicate_succ]

lemma sha1_length (m : List Nat) : (sha1 m).length = 20 := by
  simp [sha1, wordToBytes]

lemma wordToBytes_lt (w : Nat) : ∀ x ∈ wordToBytes w, x < 256 := by
  intro x hx
  simp only [wordToBytes, List.mem_cons, List.not_mem_nil, or_false] at hx
  rcases hx with h | h | h | h <;> omega

lemma sha1_bytes_lt (m : List Nat) : ∀ x ∈ sha1 m, x < 256 := by
  intro x hx
  simp only [sha1, List.mem_append] at hx
  rcases hx with (((h | h) | h) | h) | h <;> exact wordToBytes_lt _ x h

lemma getD_lt_256 : ∀ (l : List Nat), (∀ x ∈ l, x < 256) → ∀ n, l.getD n 0 < 256 := by
  intro l
  induction l with
  | nil => intro _ n; simp [List.getD]
  | cons a l ih =>
    intro h n
    cases n with
    | zero => simpa using h a (by simp)
    | succ n => simpa using ih (fun x hx => h x (by simp [hx])) n

lemma uuid5Bytes_length (ns : List Nat) (s : String) :
    (uuid5Bytes ns s).length = 16 := by
  simp [uuid5Bytes, sha1_length]

lemma uuid5Bytes_lt (ns : List Nat) (s : String) :
    ∀ x ∈ uuid5Bytes ns s, x < 256 := by
  have hd : ∀ x ∈ (sha1 (ns ++ strBytes s)).take 16, x < 256 :=
    fun x hx => sha1_bytes_lt _ x (List.mem_of_mem_take hx)
  intro x hx
  simp only [uuid5Bytes, List.mem_append, List.mem_singleton] at hx
  rcases hx with (((h | h) | h) | h) | h
  · exact hd x (List.mem_of_mem_take h)
  · subst h
    have h6 : ((sha1 (ns ++ strBytes s)).take 16).getD 6 0 &&& 0x0F < 2 ^ 8 :=
      lt_of_le_of_lt Nat.and_le_right (by norm_num)
    exact lt_of_lt_of_eq (Nat.or_lt_two_pow h6 (by norm_num)) (by norm_num)
  · subst h; exact getD_lt_256 _ hd 7
  · subst h
    have h8 : ((sha1 (ns ++ strBytes s)).take 16).getD 8 0 &&& 0x3F < 2 ^ 8 :=
      lt_of_le_of_lt Nat.and_le_right (by norm_num)
    exact lt_of_lt_of_eq (Nat.or_lt_two_pow h8 (by norm_num)) (by norm_num)
  · exact hd x (List.mem_of_mem_drop h)

lemma foldlBase256_lt : ∀ (bs : List Nat) (acc : Nat), (∀ x ∈ bs, x < 256) →
    bs.foldl (fun a x => a * 256 + x) acc < (acc + 1) * 256 ^ bs.length := by
  intro bs
  induction bs with
  | nil => intro acc _; simp
  | cons b bs ih =>
    intro acc h
    have hb : b < 256 := h b (by simp)
    have h2 := ih (acc * 256 + b) (fun x hx => h x (by simp [hx]))
    calc (b :: bs).foldl (fun a x => a * 256 + x) acc
        = bs.foldl (fun a x => a * 256 + x) (acc * 256 + b) := by simp
      _ < (acc * 256 + b + 1) * 256 ^ bs.length := h2
      _ ≤ ((acc + 1) * 256) * 256 ^ bs.length := by
          apply Nat.mul_le_mul_right; omega
      _ = (acc + 1) * 256 ^ (b :: bs).length := by
          rw [List.length_cons, pow_succ]; ring

lemma uuid5Nat_lt (ns : List Nat) (s : String) : uuid5Nat ns s < 2 ^ 128 := by
  have h := foldlBase256_lt (uuid5Bytes ns s) 0 (uuid5Bytes_lt ns s)
  rw [uuid5Bytes_length] at h
  calc uuid5Nat ns s < (0 + 1) * 256 ^ 16 := h
    _ = 2 ^ 128 := by norm_num

/-- The hashed name determines the product name: with the record name fixed,
distinct product names give distinct uuid5 inputs. -/
lemma productString_inj {p1 p2 n : String}
    (h : "EEDAI:" ++ p1 ++ "/" ++ n = "EEDAI:" ++ p2 ++ "/" ++ n) : p1 = p2 := by
  have hd := congrArg String.data h
  simp only [String.data_append] at hd
  exact String.ext (List.append_cancel_left
    (List.append_cancel_right (List.append_cancel_right hd)))

lemma replicateString_inj {k1 k2 : Nat}
    (h : String.mk (List.replicate k1 'a') = String.mk (List.replicate k2 'a')) :
    k1 = k2 := by
  have := congrArg (fun s => s.data.length) h
  simpa using this

/-- The eligibility test of the indexer, for records and declared band lists
without duplicate identifiers, says exactly that every declared raw band occurs
among the record's bands. -/
lemma eligible_iff {required : List String} {img : EEImage}
    (hreq : required.Nodup) (himg : img.bands.Nodup) :
    eligible required img = true ↔ ∀ r ∈ required, r ∈ img.bands := by
  unfold eligible
  rw [beq_iff_eq]
  have hln : (img.bands.filter (fun b => decide (b ∈ required))).Nodup :=
    himg.filter _
  have hsub : (img.bands.filter (fun b => decide (b ∈ required))).toFinset ⊆
      required.toFinset := by
    intro x hx
    rw [List.mem_toFinset] at hx ⊢
    have := (List.mem_filter.mp hx).2
    simpa using this
  constructor
  · intro hlen r hr
    have hcard : required.toFinset.card ≤
        (img.bands.filter (fun b => decide (b ∈ required))).toFinset.card := by
      rw [List.toFinset_card_of_nodup hln, List.toFinset_card_of_nodup hreq, hlen]
    have heq := Finset.eq_of_subset_of_card_le hsub hcard
    have hrf : r ∈ img.bands.filter (fun b => decide (b ∈ required)) := by
      rw [← List.mem_toFinset, heq, List.mem_toFinset]; exact hr
    exact List.mem_of_mem_filter hrf
  · intro hall
    have heq : (img.bands.filter (fun b => decide (b ∈ required))).toFinset =
        required.toFinset := by
      apply Finset.Subset.antisymm hsub
      intro x hx
      rw [List.mem_toFinset] at hx ⊢
      rw [List.mem_filter]
      exact ⟨hall x hx, by simpa using hx⟩
    calc (img.bands.filter (fun b => decide (b ∈ required))).length
        = (img.bands.filter (fun b => decide (b ∈ required))).toFinset.card :=
          (List.toFinset_card_of_nodup hln).symm
      _ = required.toFinset.card := by rw [heq]
      _ = required.length := List.toFinset_card_of_nodup hreq

lemma f32Finite_eq_false_of_nonFinite {x : PyFloat} (h : nonFiniteVal x = true) :
    f32Finite x = false := by
  cases x <;> simp_all [nonFiniteVal, f32Finite]

/- ## Claim theorems -/

set_option maxRecDepth 400000 in
/-- C1, counterexample.  The claim as stated fails twice.  First, distinct
product names cannot always yield distinct identifiers: infinitely many product
names map into the 2^128 possible UUID values, so some two distinct names
collide (no concrete collision pair is exhibitable, but the universal statement
is false).  Second, an explicitly supplied empty product name is falsy in
Python, so the parser hashes EEDAI:<record> rather than EEDAI:/<record>, and
those two UUIDs differ. -/
theorem identity_claim_counterexample :
    (¬ ∀ (recName p1 p2 : String), p1 ≠ p2 →
        parse_id p1 recName ≠ parse_id p2 recName) ∧
    ls8_parse_id (some "") "rec" ≠
      uuid5 NAMESPACE_URL ("EEDAI:" ++ "" ++ "/" ++ "rec") := by
  constructor
  · intro hcl
    obtain ⟨k1, k2, hne, heq⟩ := Finite.exists_ne_map_eq_of_infinite
      (fun k : ℕ => (⟨uuid5Nat NAMESPACE_URL
        ("EEDAI:" ++ String.mk (List.replicate k 'a') ++ "/" ++ "rec") % 2 ^ 128,
        Nat.mod_lt _ (by norm_num)⟩ : Fin (2 ^ 128)))
    have hsne : String.mk (List.replicate k1 'a') ≠
        String.mk (List.replicate k2 'a') :=
      fun hs => hne (replicateString_inj hs)
    have h2 := congrArg Fin.val heq
    simp only at h2
    rw [Nat.mod_eq_of_lt (uuid5Nat_lt _ _), Nat.mod_eq_of_lt (uuid5Nat_lt _ _)]
      at h2
    exact hcl "rec" _ _ hsne (by unfold parse_id uuid5; rw [h2])
  · decide

set_option maxRecDepth 400000 in
/-- C1, amended.  The identifier is the version-5 UUID in the URL namespace of
EEDAI:<product>/<record> whenever a non-empty product name is supplied (in the
parse variant taking an optional product; the parser.py variant always includes
its mandatory product), and of EEDAI:<record> when the product is absent or
empty; the identifier is deterministic; changing only the product name always
changes the hashed input string, and changes the identifier on the concrete
products checked (128-bit digest collisions cannot be excluded universally). -/
theorem identity_claim_amended :
    (∀ p n, parse_id p n = uuid5 NAMESPACE_URL ("EEDAI:" ++ p ++ "/" ++ n)) ∧
    (∀ p n, pyTruthy (some p) = true →
        ls8_parse_id (some p) n = uuid5 NAMESPACE_URL ("EEDAI:" ++ p ++ "/" ++ n)) ∧
    (∀ n, ls8_parse_id none n = uuid5 NAMESPACE_URL ("EEDAI:" ++ n) ∧
        ls8_parse_id (some "") n = uuid5 NAMESPACE_URL ("EEDAI:" ++ n)) ∧
    (∀ p1 n1 p2 n2, p1 = p2 → n1 = n2 → parse_id p1 n1 = parse_id p2 n2) ∧
    (∀ p1 p2 n, p1 ≠ p2 →
        ("EEDAI:" ++ p1 ++ "/" ++ n) ≠ ("EEDAI:" ++ p2 ++ "/" ++ n)) ∧
    parse_id "ls8_test" "LC08_scene_001" ≠ parse_id "s2_test" "LC08_scene_001" := by
  refine ⟨fun p n => rfl, ?_, fun n => ⟨rfl, rfl⟩, ?_, ?_, ?_⟩
  · intro p n hp
    simp [ls8_parse_id, hp]
  · intro p1 n1 p2 n2 hp hn
    rw [hp, hn]
  · intro p1 p2 n hne heq
    exact hne (productString_inj heq)
  · decide

/-- C1, witness for the amended theorem at concrete inputs. -/
theorem identity_claim_amended_witness :
    pyTruthy (some "ls8_test") = true ∧
    ls8_parse_id (some "ls8_test") "rec" =
      uuid5 NAMESPACE_URL ("EEDAI:" ++ "ls8_test" ++ "/" ++ "rec") ∧
    parse_id "ls8_test" "rec" = parse_id "ls8_test" "rec" ∧
    ("ls8" : String) ≠ "s2" ∧
    ("EEDAI:" ++ "ls8" ++ "/" ++ "rec") ≠ ("EEDAI:" ++ "s2" ++ "/" ++ "rec") :=
  ⟨by decide, identity_claim_amended.2.1 "ls8_test" "rec" (by decide),
   identity_claim_amended.2.2.2.1 "ls8_test" "rec" "ls8_test" "rec" rfl rfl,
   by decide,
   identity_claim_amended.2.2.2.2.1 "ls8" "s2" "rec" (by decide)⟩

/-- The one-page catalog is a chain of one page. -/
lemma chains_onePage (imgs : List EEImage) : Chains (onePageCat imgs) none [imgs] [] :=
  Chains.last rfl

/-- The two-page catalog is a chain linked by tok1. -/
lemma chains_twoPage :
    Chains twoPageCat none
      [[{ name := "p1a", bands := ["B1"] }], [{ name := "p2a", bands := ["B1"] }]]
      ["tok1"] :=
  Chains.cons rfl (Chains.last rfl) (by simp)

/-- Instantiation of the pagination loop on a chained catalog, through the
gee_indexer wrapper. -/
lemma gee_indexer_chained (cat : Option String → Resp)
    (pages : List (List EEImage)) (toks : List String)
    (hch : Chains cat none pages toks) (registered : List String)
    (table : List (String × String)) (p : String)
    (hp : registered.contains p = true) (f : Filters) (hf : f.pageToken = none)
    (fuel : Nat) (hfuel : pages.length + 1 ≤ fuel) (s : Nat) :
    gee_indexer cat registered table (some p) f fuel s =
      .ok (some ({ requests := none :: toks.map some,
                   images := pages.flatten,
                   upserted := pages.flatten.filter (eligible (table.map Prod.fst)),
                   sum := pages.flatten.length,
                   tokenAfter := List.replicate (toks.length + 1) none,
                   finalToken := none }, s + pages.flatten.length)) := by
  have hmp : missingProduct registered (some p) = false := by
    simp only [missingProduct, hp, Bool.not_true]
  have hrun := runLoop_chained cat (table.map Prod.fst) hch f hf fuel hfuel
  simp [gee_indexer, hmp, hrun]

/-- C5, confirmed.  On a catalog of pages chained by continuation tokens, the
walk requests the pages in order (the initial request carries no pageToken,
each later request carries exactly the token just received), processes each page's
records exactly once in page order, terminates right after the first page
lacking a token (independently of remaining fuel), and the filters hold no
pageToken at the end of any iteration nor after the walk. -/
theorem pagination_exhaustion (cat : Option String → Resp)
    (pages : List (List EEImage)) (toks : List String)
    (hch : Chains cat none pages toks) (registered : List String)
    (table : List (String × String)) (p : String)
    (hp : registered.contains p = true) (f : Filters) (hf : f.pageToken = none)
    (fuel : Nat) (hfuel : pages.length + 1 ≤ fuel) (s : Nat) :
    gee_indexer cat registered table (some p) f fuel s =
      .ok (some ({ requests := none :: toks.map some,
                   images := pages.flatten,
                   upserted := pages.flatten.filter (eligible (table.map Prod.fst)),
                   sum := pages.flatten.length,
                   tokenAfter := List.replicate (toks.length + 1) none,
                   finalToken := none }, s + pages.flatten.length)) :=
  gee_indexer_chained cat pages toks hch registered table p hp f hf fuel hfuel s

/-- C5, witness: a concrete two-page catalog chained by tok1. -/
theorem pagination_exhaustion_witness :
    Chains twoPageCat none
      [[{ name := "p1a", bands := ["B1"] }], [{ name := "p2a", bands := ["B1"] }]]
      ["tok1"] ∧
    (["ls8_prod"].contains "ls8_prod" = true) ∧
    ({ base := [], pageToken := none } : Filters).pageToken = none ∧
    ([[({ name := "p1a", bands := ["B1"] } : EEImage)],
      [{ name := "p2a", bands := ["B1"] }]].length + 1 ≤ 3) ∧
    gee_indexer twoPageCat ["ls8_prod"] b1Table (some "ls8_prod")
        { base := [], pageToken := none } 3 0 =
      .ok (some ({ requests := [none, some "tok1"],
                   images := [{ name := "p1a", bands := ["B1"] },
                              { name := "p2a", bands := ["B1"] }],
                   upserted := [{ name := "p1a", bands := ["B1"] },
                                { name := "p2a", bands := ["B1"] }],
                   sum := 2,
                   tokenAfter := [none, none],
                   finalToken := none }, 2)) := by
  refine ⟨chains_twoPage, by decide, rfl, by decide, ?_⟩
  have h := pagination_exhaustion twoPageCat
    [[{ name := "p1a", bands := ["B1"] }], [{ name := "p2a", bands := ["B1"] }]]
    ["tok1"] chains_twoPage ["ls8_prod"] b1Table "ls8_prod" (by decide)
    { base := [], pageToken := none } rfl 3 (by decide) 0
  simpa using h

/-- C2, counterexample.  A record that lists a declared band twice fools the
count-based eligibility test: dupScene's bands are a strict subset of the
product's declared band set {B1, B2}, yet the record is parsed, built and
upserted, because two of its band identifiers occur in the declared set and two
equals the size of that set. -/
theorem band_completeness_counterexample :
    (∀ b ∈ dupScene.bands, b ∈ lsTable.map Prod.fst) ∧
    ("B2" ∈ lsTable.map Prod.fst ∧ "B2" ∉ dupScene.bands) ∧
    dupScene ∈ upsertedOf (gee_indexer (onePageCat [dupScene]) ["ls8_prod"]
      lsTable (some "ls8_prod") { base := [], pageToken := none } 2 0) := by
  refine ⟨by decide, ⟨by decide, by decide⟩, by decide⟩

/-- C2, amended.  A record is parsed, built and upserted iff the count of its
raw band identifiers occurring in the declared band set equals the size of that
set; for records without duplicate band identifiers this means: a record whose
bands form a strict subset of the declared set is never upserted, and a record
carrying every declared band (also a strict superset) is upserted with a band
mapping holding exactly the declared bands, each mapped to the raw band
declared for it. -/
theorem band_completeness_amended (cat : Option String → Resp)
    (pages : List (List EEImage)) (toks : List String)
    (hch : Chains cat none pages toks) (registered : List String)
    (table : List (String × String)) (p : String)
    (hp : registered.contains p = true)
    (hreq : (table.map Prod.fst).Nodup)
    (f : Filters) (hf : f.pageToken = none)
    (fuel : Nat) (hfuel : pages.length + 1 ≤ fuel) (s : Nat) :
    upsertedOf (gee_indexer cat registered table (some p) f fuel s) =
      pages.flatten.filter (eligible (table.map Prod.fst)) ∧
    (∀ img ∈ pages.flatten, img.bands.Nodup →
      (∀ b ∈ img.bands, b ∈ table.map Prod.fst) →
      (∃ r ∈ table.map Prod.fst, r ∉ img.bands) →
      img ∉ upsertedOf (gee_indexer cat registered table (some p) f fuel s)) ∧
    (∀ img ∈ pages.flatten, img.bands.Nodup →
      (∀ r ∈ table.map Prod.fst, r ∈ img.bands) →
      img ∈ upsertedOf (gee_indexer cat registered table (some p) f fuel s) ∧
      (make_metadata_doc table (some p) img).bands =
        table.map (fun rs =>
          (rs.2, { path := "EEDAI:" ++ img.name ++ ":" ++ rs.1, layer := 1 }))) := by
  have hg := gee_indexer_chained cat pages toks hch registered table p hp f hf
    fuel hfuel s
  have hup : upsertedOf (gee_indexer cat registered table (some p) f fuel s) =
      pages.flatten.filter (eligible (table.map Prod.fst)) := by
    rw [hg]; rfl
  refine ⟨hup, ?_, ?_⟩
  · intro img _ hnodup _ hmiss hin
    rw [hup] at hin
    have he := (List.mem_filter.mp hin).2
    obtain ⟨r, hr, hrn⟩ := hmiss
    exact hrn ((eligible_iff hreq hnodup).mp he r hr)
  · intro img hmem hnodup hall
    refine ⟨?_, rfl⟩
    rw [hup]
    exact List.mem_filter.mpr ⟨hmem, (eligible_iff hreq hnodup).mpr hall⟩

/-- C2, witness: a one-page catalog with a duplicate-free record carrying
exactly the declared bands. -/
theorem band_completeness_amended_witness :
    Chains (onePageCat [okScene]) none [[okScene]] [] ∧
    (["ls8_prod"].contains "ls8_prod" = true) ∧
    (lsTable.map Prod.fst).Nodup ∧
    okScene.bands.Nodup ∧ (∀ r ∈ lsTable.map Prod.fst, r ∈ okScene.bands) ∧
    okScene ∈ upsertedOf (gee_indexer (onePageCat [okScene]) ["ls8_prod"]
      lsTable (some "ls8_prod") { base := [], pageToken := none } 2 0) := by
  refine ⟨chains_onePage [okScene], by decide, by decide, by decide, by decide, ?_⟩
  have h := band_completeness_amended (onePageCat [okScene]) [[okScene]] []
    (chains_onePage [okScene]) ["ls8_prod"] lsTable "ls8_prod" (by decide)
    (by decide) { base := [], pageToken := none } rfl 2 (by decide) 0
  exact (h.2.2 okScene (by decide) (by decide) (by decide)).1

/-- C4, counterexample.  On a page holding one eligible and one ineligible
record, the indexer upserts only the eligible one yet returns 2: the loop adds
the full page size to image_sum, so skipped records do increment the returned
count, contradicting the claim that the count equals the number of eligible
records observed. -/
theorem indexer_count_counterexample :
    countOf (gee_indexer (onePageCat mixedPage) ["ls8_prod"] b1Table
      (some "ls8_prod") { base := [], pageToken := none } 2 0) = 2 ∧
    upsertedOf (gee_indexer (onePageCat mixedPage) ["ls8_prod"] b1Table
      (some "ls8_prod") { base := [], pageToken := none } 2 0) =
      [{ name := "a", bands := ["B1"] }] ∧
    (2 : Nat) ≠ 1 := by
  refine ⟨by decide, by decide, by decide⟩

/-- C4, amended.  The count component returned by the indexer is the initial
image_sum plus the total number of records on every fetched page, independent
of eligibility: ineligible records are skipped for upserting but still
counted. -/
theorem indexer_count_amended (cat : Option String → Resp)
    (pages : List (List EEImage)) (toks : List String)
    (hch : Chains cat none pages toks) (registered : List String)
    (table : List (String × String)) (p : String)
    (hp : registered.contains p = true) (f : Filters) (hf : f.pageToken = none)
    (fuel : Nat) (hfuel : pages.length + 1 ≤ fuel) (s : Nat) :
    countOf (gee_indexer cat registered table (some p) f fuel s) =
      s + pages.flatten.length := by
  rw [gee_indexer_chained cat pages toks hch registered table p hp f hf
    fuel hfuel s]
  rfl

/-- C4, witness: one page with one record, initial sum 5. -/
theorem indexer_count_amended_witness :
    Chains (onePageCat [okScene]) none [[okScene]] [] ∧
    (["ls8_prod"].contains "ls8_prod" = true) ∧
    countOf (gee_indexer (onePageCat [okScene]) ["ls8_prod"] lsTable
      (some "ls8_prod") { base := [], pageToken := none } 2 5) = 5 + 1 := by
  refine ⟨chains_onePage [okScene], by decide, ?_⟩
  have h := indexer_count_amended (onePageCat [okScene]) [[okScene]] []
    (chains_onePage [okScene]) ["ls8_prod"] lsTable "ls8_prod" (by decide)
    { base := [], pageToken := none } rfl 2 (by decide) 5
  simpa using h

/-- C7, counterexample.  The record dupSceneS1 lists VV twice and is upserted,
but its document's band mapping also names vh, mapped to raw band VH, which is
not among the record's bands — the mapping escapes the intersection of the
record's bands with the declared set. -/
theorem doc_band_invariant_counterexample :
    dupSceneS1 ∈ upsertedOf (gee_indexer (onePageCat [dupSceneS1]) ["s1_prod"]
      s1Table (some "s1_prod") { base := [], pageToken := none } 2 0) ∧
    ("vh", { path := "EEDAI:" ++ "s1scene" ++ ":" ++ "VH", layer := 1 }) ∈
      (make_metadata_doc s1Table (some "s1_prod") dupSceneS1).bands ∧
    "VH" ∉ dupSceneS1.bands := by
  refine ⟨by decide, by decide, by decide⟩

/-- C7, amended.  For every record the indexer upserts whose band identifiers
are duplicate-free: each semantic band name of the declared set appears exactly
once as a key of the document's band mapping, mapped to the path
EEDAI:<record name>:<raw band> for the raw band declared for that name with
layer 1, and each mapped raw band does lie among the record's bands (so the
mapping stays inside the intersection of record and declared bands). -/
theorem doc_band_invariant_amended (cat : Option String → Resp)
    (pages : List (List EEImage)) (toks : List String)
    (hch : Chains cat none pages toks) (registered : List String)
    (table : List (String × String)) (p : String)
    (hp : registered.contains p = true)
    (hsem : (table.map Prod.snd).Nodup) (hreq : (table.map Prod.fst).Nodup)
    (f : Filters) (hf : f.pageToken = none)
    (fuel : Nat) (hfuel : pages.length + 1 ≤ fuel) (s : Nat) :
    ∀ img ∈ upsertedOf (gee_indexer cat registered table (some p) f fuel s),
      img.bands.Nodup →
      ((make_metadata_doc table (some p) img).bands.map Prod.fst =
          table.map Prod.snd ∧
       ((make_metadata_doc table (some p) img).bands.map Prod.fst).Nodup ∧
       (make_metadata_doc table (some p) img).bands =
         table.map (fun rs =>
           (rs.2, { path := "EEDAI:" ++ img.name ++ ":" ++ rs.1, layer := 1 })) ∧
       (∀ rs ∈ table, rs.1 ∈ img.bands)) := by
  intro img hin hnodup
  have hg := gee_indexer_chained cat pages toks hch registered table p hp f hf
    fuel hfuel s
  have hup : upsertedOf (gee_indexer cat registered table (some p) f fuel s) =
      pages.flatten.filter (eligible (table.map Prod.fst)) := by
    rw [hg]; rfl
  rw [hup] at hin
  have he := (List.mem_filter.mp hin).2
  have hkeys : (make_metadata_doc table (some p) img).bands.map Prod.fst =
      table.map Prod.snd := by
    simp [make_metadata_doc, List.map_map]
  refine ⟨hkeys, ?_, rfl, ?_⟩
  · rw [hkeys]; exact hsem
  · intro rs hrs
    exact (eligible_iff hreq hnodup).mp he rs.1 (List.mem_map_of_mem _ hrs)

/-- C7, witness: a duplicate-free radar record carrying both declared bands. -/
theorem doc_band_invariant_amended_witness :
    Chains (onePageCat [okSceneS1]) none [[okSceneS1]] [] ∧
    (["s1_prod"].contains "s1_prod" = true) ∧
    (s1Table.map Prod.snd).Nodup ∧ (s1Table.map Prod.fst).Nodup ∧
    okSceneS1 ∈ upsertedOf (gee_indexer (onePageCat [okSceneS1]) ["s1_prod"]
      s1Table (some "s1_prod") { base := [], pageToken := none } 2 0) ∧
    okSceneS1.bands.Nodup ∧
    ((make_metadata_doc s1Table (some "s1_prod") okSceneS1).bands.map Prod.fst =
        s1Table.map Prod.snd ∧
     ((make_metadata_doc s1Table (some "s1_prod") okSceneS1).bands.map
        Prod.fst).Nodup ∧
     (make_metadata_doc s1Table (some "s1_prod") okSceneS1).bands =
       s1Table.map (fun rs =>
         (rs.2, { path := "EEDAI:" ++ okSceneS1.name ++ ":" ++ rs.1,
                  layer := 1 })) ∧
     (∀ rs ∈ s1Table, rs.1 ∈ okSceneS1.bands)) := by
  refine ⟨chains_onePage [okSceneS1], by decide, by decide, by decide, by decide,
    by decide, ?_⟩
  have h := doc_band_invariant_amended (onePageCat [okSceneS1]) [[okSceneS1]] []
    (chains_onePage [okSceneS1]) ["s1_prod"] s1Table "s1_prod" (by decide)
    (by decide) (by decide) { base := [], pageToken := none } rfl 2 (by decide) 0
  exact h okSceneS1 (by decide) (by decide)

/-- C3, code bug.  When document resolution succeeds and a dataset with the
same identifier is already indexed (update unset), the external add raises a
duplicate-dataset error; add_dataset catches it with `except Exception as err`,
and since Python unbinds that name when the handler exits, the following
`return dataset, err` raises NameError instead of returning a None error — the
run aborts rather than absorbing the duplicate.  A fresh identifier is added
and returned with a None error as the claim expects. -/
theorem add_dataset_duplicate_name_error :
    add_dataset none "d1" [] false = .ok (["d1"], "d1", none) ∧
    add_dataset none "d1" ["d1"] false = .error (.nameError "err") :=
  ⟨rfl, rfl⟩

/-- Helper: when the product is None or not among the registered products, the
pagination loop never runs — gee_indexer returns the missing-product error and
issues no catalog listing request. -/
lemma missing_product_raises (cat : Option String → Resp)
    (registered : List String) (table : List (String × String))
    (product : Option String) (f : Filters) (fuel s : Nat)
    (h : product = none ∨ ∃ p, product = some p ∧ registered.contains p = false) :
    gee_indexer cat registered table product f fuel s =
      .error "Missing product." ∧
    requestsIssued (gee_indexer cat registered table product f fuel s) = [] := by
  have hc : missingProduct registered product = true := by
    rcases h with rfl | ⟨p, rfl, hp⟩
    · rfl
    · simp only [missingProduct, hp, Bool.not_false]
  constructor <;> simp [gee_indexer, hc, requestsIssued]

/-- C8, counterexample.  An invocation with a missing product does raise the
missing-product error, yet not before any network activity begins: the client
construction that precedes the product check fetches the API discovery
document over the network, so the erroring run's chronological network-event
list is non-empty (it is exactly the discovery fetch). -/
theorem missing_product_network_counterexample :
    (indexer_with_setup (fun _ => none) [] [] none
        { base := [], pageToken := none } 3 0).2 = .error "Missing product." ∧
    (indexer_with_setup (fun _ => none) [] [] none
        { base := [], pageToken := none } 3 0).1 = [NetEvent.discoveryFetch] ∧
    ([NetEvent.discoveryFetch] : List NetEvent) ≠ [] :=
  ⟨rfl, rfl, by decide⟩

/-- C8, amended.  Whenever the product is None or not among the registered
products, the indexer raises ValueError("Missing product.") before any catalog
listing request is issued — the check precedes the pagination loop — and the
erroring invocation's network activity is exactly the discovery fetch of the
client construction, which runs before the check. -/
theorem missing_product_raises_amended (cat : Option String → Resp)
    (registered : List String) (table : List (String × String))
    (product : Option String) (f : Filters) (fuel s : Nat)
    (h : product = none ∨ ∃ p, product = some p ∧ registered.contains p = false) :
    (indexer_with_setup cat registered table product f fuel s).2 =
      .error "Missing product." ∧
    (indexer_with_setup cat registered table product f fuel s).1 =
      [NetEvent.discoveryFetch] := by
  have hmain := missing_product_raises cat registered table product f fuel s h
  constructor
  · show gee_indexer cat registered table product f fuel s =
      .error "Missing product."
    exact hmain.1
  · show NetEvent.discoveryFetch ::
        (requestsIssued (gee_indexer cat registered table product f fuel s)).map
          NetEvent.listImages = [NetEvent.discoveryFetch]
    rw [hmain.2]
    rfl

/-- C8, witness: a None product against an empty registry. -/
theorem missing_product_raises_amended_witness :
    ((none : Option String) = none ∨ ∃ p, (none : Option String) = some p ∧
        ([] : List String).contains p = false) ∧
    (indexer_with_setup (fun _ => none) [] [] none
        { base := [], pageToken := none } 3 0).2 = .error "Missing product." ∧
    (indexer_with_setup (fun _ => none) [] [] none
        { base := [], pageToken := none } 3 0).1 = [NetEvent.discoveryFetch] :=
  ⟨Or.inl rfl,
   missing_product_raises_amended (fun _ => none) [] [] none
     { base := [], pageToken := none } 3 0 (Or.inl rfl)⟩

lemma f32Finite_fin_small {x : ℚ} (h1 : x < 2 ^ 128 - 2 ^ 103)
    (h2 : -(2 ^ 128 - 2 ^ 103 : ℚ) < x) : f32Finite (.fin x) = true := by
  simp [f32Finite, h1]
  linarith

/-- C6, counterexample.  The finiteness check reads only the first ring of the
geometry, so a record whose non-finite coordinate sits in a later ring is sent
through the ordinary reprojection branch: with the second ring of infRingGeo
holding an Infinity, parse returns whatever the bounding-box computation
produces (here boxCorners) rather than the canonical whole-globe corner set. -/
theorem degenerate_geometry_counterexample :
    (∃ pt ∈ infRingGeo.coordinates.flatten, nonFiniteVal pt.lon = true) ∧
    (parse boxReproject "ls8_test" infRingImage).coord ≠ wholeGlobe := by
  constructor
  · exact ⟨{ lon := .inf, lat := .fin 0 }, by simp [infRingGeo], rfl⟩
  · have h0 : f32Finite (.fin 0) = true :=
      f32Finite_fin_small (by norm_num) (by norm_num)
    have h1 : f32Finite (.fin 1) = true :=
      f32Finite_fin_small (by norm_num) (by norm_num)
    have hfin : geometry_isfinite infRingGeo = true := by
      simp [geometry_isfinite, infRingGeo, h0, h1]
    have hco : (parse boxReproject "ls8_test" infRingImage).coord = boxCorners := by
      simp [parse, infRingImage, hfin, boxReproject]
    rw [hco]
    intro h
    have h2 := congrArg (fun c => c.ul.lon) h
    simp only [boxCorners, wholeGlobe] at h2
    exact absurd h2 (by norm_num)

/-- C6, amended.  For every record whose geometry's first ring holds a
non-finite (infinity or nan) coordinate, parse takes the substitute branch —
the result does not depend on the reprojection function and does not raise —
and returns the canonical whole-globe corner set as the coord field. -/
theorem degenerate_geometry_amended (reproject : GeoJson → Corners)
    (productName : String) (img : PyImage)
    (h : ∃ pt ∈ img.geometry.coordinates.headD [],
        nonFiniteVal pt.lon = true ∨ nonFiniteVal pt.lat = true) :
    (parse reproject productName img).coord = wholeGlobe := by
  obtain ⟨pt, hmem, hnf⟩ := h
  have hfin : geometry_isfinite img.geometry = false := by
    unfold geometry_isfinite
    rw [List.all_eq_false]
    refine ⟨pt, hmem, ?_⟩
    rcases hnf with h1 | h1 <;> simp [f32Finite_eq_false_of_nonFinite h1]
  simp [parse, hfin]

/-- C6, witness: an Infinity in the first ring forces the canonical corners,
whatever the reprojection function would have produced. -/
theorem degenerate_geometry_amended_witness :
    (∃ pt ∈ firstRingInfImage.geometry.coordinates.headD [],
        nonFiniteVal pt.lon = true ∨ nonFiniteVal pt.lat = true) ∧
    (parse boxReproject "gpm_prod" firstRingInfImage).coord = wholeGlobe :=
  ⟨⟨{ lon := .inf, lat := .fin 0 },
      by simp [firstRingInfImage, firstRingInfGeo], Or.inl rfl⟩,
   degenerate_geometry_amended boxReproject "gpm_prod" firstRingInfImage
     ⟨{ lon := .inf, lat := .fin 0 },
      by simp [firstRingInfImage, firstRingInfGeo], Or.inl rfl⟩⟩

/-- C10, confirmed.  The finiteness classification looks only at the first ring
of the geometry and judges finiteness after the conversion to 32-bit floats:
hugeGeo carries only finite double-precision coordinates, yet its magnitude
10^39 exceeds every float32, so it is classified non-finite and parse
substitutes the canonical whole-globe corner set, for every reprojection
function. -/
theorem first_ring_float32_classification :
    (∀ g g2 : GeoJson, g.coordinates ≠ [] → g2.coordinates ≠ [] →
        g.coordinates.headD [] = g2.coordinates.headD [] →
        geometry_isfinite g = geometry_isfinite g2) ∧
    (∀ pt ∈ hugeGeo.coordinates.flatten,
        (∃ x : ℚ, pt.lon = .fin x) ∧ ∃ y : ℚ, pt.lat = .fin y) ∧
    geometry_isfinite hugeGeo = false ∧
    (∀ (reproject : GeoJson → Corners) (productName : String),
        (parse reproject productName hugeImage).coord = wholeGlobe) := by
  have hx : f32Finite (.fin ((10 : ℚ) ^ 39)) = false := by
    have hlt : ¬ ((10 : ℚ) ^ 39 < 2 ^ 128 - 2 ^ 103) := by norm_num
    simp [f32Finite, hlt]
  have hfalse : geometry_isfinite hugeGeo = false := by
    simp [geometry_isfinite, hugeGeo, hx]
  refine ⟨?_, ?_, hfalse, ?_⟩
  · intro g g2 _ _ hh
    unfold geometry_isfinite
    rw [hh]
  · intro pt hpt
    rw [show hugeGeo.coordinates.flatten =
        [{ lon := .fin (10 ^ 39), lat := .fin 0 }] from rfl,
      List.mem_singleton] at hpt
    subst hpt
    exact ⟨⟨10 ^ 39, rfl⟩, ⟨0, rfl⟩⟩
  · intro reproject productName
    simp [parse, hugeImage, hfalse]

/-- C10, witness: replacing every ring after the first changes nothing in the
classification. -/
theorem first_ring_float32_classification_witness :
    (hugeGeo.coordinates ≠ []) ∧ (hugeGeoTwoRings.coordinates ≠ []) ∧
    hugeGeo.coordinates.headD [] = hugeGeoTwoRings.coordinates.headD [] ∧
    geometry_isfinite hugeGeo = geometry_isfinite hugeGeoTwoRings := by
  refine ⟨by simp [hugeGeo], by simp [hugeGeoTwoRings], rfl, ?_⟩
  exact first_ring_float32_classification.1 hugeGeo hugeGeoTwoRings
    (by simp [hugeGeo]) (by simp [hugeGeoTwoRings]) rfl

/-- C9, confirmed.  After the credential holder's teardown — Datacube.remove or
finalization both run cleanup('EEDA_BEARER', request) — the published bearer
token slot is empty (the variable is popped when set; an already-empty value is
left empty) and the transport session, when one exists, is closed. -/
theorem credential_cleanup_releases (st : EnvSession) :
    envTruthy ((datacube_remove st).env "EEDA_BEARER") = false ∧
    sessionClosed (datacube_remove st).request = true := by
  constructor
  · simp only [datacube_remove, cleanup]
    cases h : envTruthy (st.env "EEDA_BEARER") with
    | true => simp [h, envTruthy]
    | false => simp [h]
  · cases hr : st.request <;> simp [datacube_remove, cleanup, sessionClosed, hr]

/-- C9, witness: a state holding a published token and an open session. -/
theorem credential_cleanup_releases_witness :
    envTruthy ((datacube_remove tokenState).env "EEDA_BEARER") = false ∧
    sessionClosed (datacube_remove tokenState).request = true :=
  credential_cleanup_releases tokenState

end OdcGee
